import Mathlib

/-!
# Verification of the APD Listener Tool backend

Shallow embedding of the batch persistence pipeline (`backend/main.py`),
the live websocket transcription handler (`backend/websocket_handler.py`
and the websocket endpoint in `backend/main.py`), the extraction-response
validation (`backend/tasks.py`), and the instruction post-processing
(`main.py`), together with theorems settling the frozen claims.
-/

namespace APD

/-! ## Data model (backend/database.py)

Rows of the three tables `audio_jobs`, `instructions`, `audio_chunks`.
SQLAlchemy surrogate `id` and timestamp columns are omitted; rows are kept
in insertion order in each table's list.  `audio_url` is `nullable=False`
in the schema, so a chunk row always carries a URL string. -/

structure JobRow where
  job_id : String
  transcription : String
  instruction_count : Nat
deriving Repr, DecidableEq

structure InstrRow where
  job_id : String
  instruction_index : Nat
  instruction_text : String
  steps : List String
deriving Repr, DecidableEq

structure ChunkRow where
  job_id : String
  instruction_index : Nat
  step_index : Nat
  step_text : String
  audio_url : String
  s3_key : String
deriving Repr, DecidableEq

structure DBState where
  jobs : List JobRow
  instructions : List InstrRow
  chunks : List ChunkRow
deriving Repr, DecidableEq

/-- The empty database. -/
def DBState.empty : DBState := ⟨[], [], []⟩

/-! ## Instruction objects

`save_to_database` consumes `instructions_data.get("instructions", [])`
whose elements are read with `instruction_obj.get("instruction", "")` and
`instruction_obj.get("steps", [])`; an element is therefore modelled by
its two fields after those defaulting reads. -/

structure InstrObj where
  instruction : String
  steps : List String
deriving Repr, DecidableEq

/-! ## Speech synthesis (backend/main.py, `generate_tts_audio`)

`generate_tts_audio` calls the TTS API and uploads the result to S3; both
can raise.  The external outcome is an oracle `ttsOk : Nat → Nat → Bool`
indexed by (instruction index, step index); on success the S3 key and the
public URL are computed exactly as in the source. -/

def s3KeyFor (job_id : String) (instruction_idx step_idx : Nat) : String :=
  "tts/" ++ job_id ++ "/instruction_" ++ toString instruction_idx ++
    "_step_" ++ toString step_idx ++ ".mp3"

def audioUrlFor (bucket region s3_key : String) : String :=
  "https://" ++ bucket ++ ".s3." ++ region ++ ".amazonaws.com/" ++ s3_key

def generate_tts_audio (ttsOk : Nat → Nat → Bool) (bucket region : String)
    (job_id : String) (instruction_idx step_idx : Nat) :
    Option (String × String) :=
  if ttsOk instruction_idx step_idx then
    let key := s3KeyFor job_id instruction_idx step_idx
    some (audioUrlFor bucket region key, key)
  else
    none

/-! ## save_to_database (backend/main.py, lines 178-219)

The function adds the `AudioJob` row and commits it, then loops over the
instruction objects, staging an `Instruction` row and, per step, calling
`generate_tts_audio` and staging an `AudioChunk` row; a single `commit`
at the very end persists all staged rows.  There is no try/except around
`generate_tts_audio`: an exception aborts the loop, the staged rows are
never committed (the session is rolled back when `get_db` closes it), and
only the job row committed first survives.

An event trace records the commit of the job row, every synthesis call in
the order it is issued, and the final commit. -/

inductive SaveEvent
  | commitJob
  | ttsCall (instruction_idx step_idx : Nat)
  | commitAll
deriving Repr, DecidableEq

structure SaveResult where
  db : DBState
  trace : List SaveEvent
  ok : Bool
deriving Repr, DecidableEq

/-- The inner per-step loop of `save_to_database`: synthesize each step in
order, staging a chunk row per success; the first failure aborts. -/
def saveSteps (ttsOk : Nat → Nat → Bool) (bucket region job_id : String)
    (idx : Nat) : Nat → List String → List ChunkRow × List SaveEvent × Bool
  | _, [] => ([], [], true)
  | j, step :: rest =>
    match generate_tts_audio ttsOk bucket region job_id idx j with
    | none => ([], [SaveEvent.ttsCall idx j], false)
    | some (url, key) =>
      let r := saveSteps ttsOk bucket region job_id idx (j + 1) rest
      ({ job_id := job_id, instruction_index := idx, step_index := j,
         step_text := step, audio_url := url, s3_key := key } :: r.1,
       SaveEvent.ttsCall idx j :: r.2.1, r.2.2)

/-- The outer loop of `save_to_database` over the enumerated instruction
objects: stage an instruction row, then run the step loop; a synthesis
failure aborts the whole loop. -/
def saveInstrs (ttsOk : Nat → Nat → Bool) (bucket region job_id : String) :
    Nat → List InstrObj →
    List InstrRow × List ChunkRow × List SaveEvent × Bool
  | _, [] => ([], [], [], true)
  | idx, obj :: rest =>
    let row : InstrRow :=
      { job_id := job_id, instruction_index := idx,
        instruction_text := obj.instruction, steps := obj.steps }
    let s := saveSteps ttsOk bucket region job_id idx 0 obj.steps
    if s.2.2 then
      let r := saveInstrs ttsOk bucket region job_id (idx + 1) rest
      (row :: r.1, s.1 ++ r.2.1, s.2.1 ++ r.2.2.1, r.2.2.2)
    else
      ([row], s.1, s.2.1, false)

/-- `save_to_database(job_id, transcription, instructions_data, db)`:
commit the job row first, then run the instruction/step loops; on success
a final commit persists the staged instruction and chunk rows, on a
synthesis failure the exception propagates and only the job row remains
committed. -/
def save_to_database (ttsOk : Nat → Nat → Bool) (bucket region : String)
    (db : DBState) (job_id transcription : String)
    (instrs : List InstrObj) : SaveResult :=
  let job : JobRow :=
    { job_id := job_id, transcription := transcription,
      instruction_count := instrs.length }
  let committed1 : DBState := { db with jobs := db.jobs ++ [job] }
  let r := saveInstrs ttsOk bucket region job_id 0 instrs
  if r.2.2.2 then
    { db := { committed1 with
        instructions := db.instructions ++ r.1,
        chunks := db.chunks ++ r.2.1 },
      trace := SaveEvent.commitJob :: r.2.2.1 ++ [SaveEvent.commitAll],
      ok := true }
  else
    { db := committed1,
      trace := SaveEvent.commitJob :: r.2.2.1,
      ok := false }

/-- Whether every synthesis call issued for the steps of one instruction
(starting at step index `j`) succeeds. -/
def stepsSynthOk (ttsOk : Nat → Nat → Bool) (idx : Nat) :
    Nat → List String → Bool
  | _, [] => true
  | j, _ :: rest => ttsOk idx j && stepsSynthOk ttsOk idx (j + 1) rest

/-- Whether every synthesis call issued for the enumerated instruction
objects (starting at instruction index `idx`) succeeds. -/
def allSynthOk (ttsOk : Nat → Nat → Bool) :
    Nat → List InstrObj → Bool
  | _, [] => true
  | idx, obj :: rest =>
    stepsSynthOk ttsOk idx 0 obj.steps && allSynthOk ttsOk (idx + 1) rest

/-! ## analyze_audio (backend/main.py, lines 241-292)

The route transcribes, extracts, then calls `save_to_database`; any
exception before `save_to_database` leaves the database untouched and is
turned into an HTTP 500.  Transcription and extraction are external calls
modelled as `Except` oracles. -/

structure AnalyzeResponse where
  job_id : String
  transcription : String
  instruction_count : Nat
deriving Repr, DecidableEq

def analyze_audio (ttsOk : Nat → Nat → Bool) (bucket region : String)
    (db : DBState) (job_id : String)
    (transcribe : Except String String)
    (detect : String → Except String (List InstrObj)) :
    Except String AnalyzeResponse × DBState :=
  match transcribe with
  | .error e => (.error e, db)
  | .ok transcription =>
    match detect transcription with
    | .error e => (.error e, db)
    | .ok instrs =>
      let r := save_to_database ttsOk bucket region db job_id
        transcription instrs
      if r.ok then
        (.ok { job_id := job_id, transcription := transcription,
               instruction_count := instrs.length }, r.db)
      else
        (.error "tts failure", r.db)

/-! ## get_job_details (backend/main.py, lines 311-347)

`filter_by(job_id).first()` on jobs, then the instruction rows filtered by
job id ordered by `instruction_index`, and the chunk rows ordered by
`(instruction_index, step_index)`. -/

def instrLe (a b : InstrRow) : Prop :=
  a.instruction_index ≤ b.instruction_index

instance : DecidableRel instrLe := fun a b =>
  inferInstanceAs (Decidable (a.instruction_index ≤ b.instruction_index))

def chunkLe (a b : ChunkRow) : Prop :=
  a.instruction_index < b.instruction_index ∨
    (a.instruction_index = b.instruction_index ∧ a.step_index ≤ b.step_index)

instance : DecidableRel chunkLe := fun _ _ => by
  unfold chunkLe; infer_instance

def get_job_details (db : DBState) (job_id : String) :
    Option (JobRow × List InstrRow × List ChunkRow) :=
  (db.jobs.find? (fun j => j.job_id == job_id)).map fun job =>
    (job,
     List.insertionSort instrLe
       (db.instructions.filter (fun r => r.job_id == job_id)),
     List.insertionSort chunkLe
       (db.chunks.filter (fun r => r.job_id == job_id)))

/-! ## Python string helpers

`str.strip()` with no argument removes leading and trailing whitespace.
The whitespace set is modelled by its ASCII members (space, tab, newline,
carriage return, vertical tab, form feed), which covers every string the
embedded code handles. -/

def isPySpace (c : Char) : Bool :=
  c = ' ' || c = '\t' || c = '\n' || c = '\r' || c = '\x0b' || c = '\x0c'

def pyStripL (l : List Char) : List Char :=
  ((l.dropWhile isPySpace).reverse.dropWhile isPySpace).reverse

/-- Python `s.strip()`. -/
def pyStrip (s : String) : String := ⟨pyStripL s.data⟩

/-! ## Live transcription handler (backend/websocket_handler.py)

Configuration constants of `LiveTranscriptionHandler.__init__`.  Times and
durations are exact rationals (the Python floats 2.0, 1.0, 0.2, 2.5 are
handled exactly by the comparisons involved). -/

def sample_rate : Nat := 16000

def channels : Nat := 1

def sample_width : Nat := 2

def buffer_size_sec : ℚ := 2

def min_audio_sec : ℚ := 1

def overlap_sec : ℚ := 1 / 5

def min_webm_bytes_to_decode : Nat := 20000

def force_decode_timeout : ℚ := 5 / 2

/-- Number of PCM bytes retained after an emission:
`int(overlap_sec * sample_rate * channels * sample_width)` (= 6400; the
float computation in the source also truncates to 6400). -/
def overlap_bytes : Nat :=
  (Int.floor (overlap_sec * (sample_rate : ℚ) * (channels : ℚ) *
    (sample_width : ℚ))).toNat

/-- Duration in seconds of a PCM byte buffer:
`len / (sample_rate * channels * sample_width)`. -/
def pcm_duration (len : Nat) : ℚ :=
  (len : ℚ) / ((sample_rate : ℚ) * (channels : ℚ) * (sample_width : ℚ))

/-- Per-connection state of `handle_connection`: the compressed WebM
buffer and decoded PCM buffer are modelled by their byte lengths, the
emitted fragments by `history`, plus the chunk counter and the time of the
last successful decode. -/
structure LiveState where
  pcm_len : Nat
  webm_len : Nat
  history : List String
  chunk_id : Nat
  last_decode_time : ℚ
deriving Repr, DecidableEq

/-- Result of `LiveTranscriptionHandler._transcribe_pcm`: the returned
text (None on a short buffer, an empty Whisper answer, or an API error)
and whether the Whisper API was actually called. -/
structure TranscribeOutcome where
  text : Option String
  api_called : Bool
deriving Repr, DecidableEq

/-- `_transcribe_pcm(pcm_data, chunk_id)`: returns None without calling
the API when the buffer is empty or shorter than `min_audio_sec`;
otherwise calls Whisper (oracle `whisper`, `none` modelling an exception)
and returns the stripped text if non-empty. -/
def transcribe_pcm (whisper : Option String) (pcm_len : Nat) :
    TranscribeOutcome :=
  if pcm_len = 0 then ⟨none, false⟩
  else if pcm_duration pcm_len < min_audio_sec then ⟨none, false⟩
  else
    match whisper with
    | none => ⟨none, true⟩
    | some t =>
      if pyStrip t = "" then ⟨none, true⟩ else ⟨some (pyStrip t), true⟩

/-- Observable outcome of handling one binary audio frame. -/
structure FrameReport where
  decode_attempted : Bool
  decode_ok : Bool
  transcribed : Bool
  emitted : Option String
  api_called : Bool
deriving Repr, DecidableEq

/-- Decode phase of the binary-frame branch of `handle_connection`
(lines 160-186): append the frame to the WebM buffer, then decode it when
the buffer reaches `min_webm_bytes_to_decode` bytes or (being non-empty)
the time since the last decode reaches `force_decode_timeout`.  On a
successful decode (oracle `decode` giving the PCM byte count) the PCM
buffer grows, the WebM buffer is cleared and the timer resets; a decode
exception (`decode = none`) keeps buffer and timer.  Returns the new
state, whether a decode was attempted, and whether it succeeded. -/
def frame_decode (st : LiveState) (frame_len : Nat) (now : ℚ)
    (decode : Option Nat) : LiveState × Bool × Bool :=
  if min_webm_bytes_to_decode ≤ st.webm_len + frame_len ∨
      (0 < st.webm_len + frame_len ∧
        force_decode_timeout ≤ now - st.last_decode_time) then
    match decode with
    | some pcm =>
      ({ st with
          pcm_len := st.pcm_len + pcm
          webm_len := 0
          last_decode_time := now }, true, true)
    | none => ({ st with webm_len := st.webm_len + frame_len }, true, false)
  else ({ st with webm_len := st.webm_len + frame_len }, false, false)

/-- Transcription phase of the binary-frame branch of `handle_connection`
(lines 187-215): when the decoded buffer's duration reaches
`buffer_size_sec`, run `_transcribe_pcm`, append and emit any non-empty
text, retain at most the trailing `overlap_bytes` of PCM and bump the
chunk counter.  Returns the new state, whether transcription was
triggered, the emitted text, and whether the Whisper API was called. -/
def frame_transcribe (st1 : LiveState) (whisper : Option String) :
    LiveState × Bool × Option String × Bool :=
  if buffer_size_sec ≤ pcm_duration st1.pcm_len then
    let out := transcribe_pcm whisper st1.pcm_len
    let hist :=
      match out.text with
      | some t => st1.history ++ [t]
      | none => st1.history
    let pcm2 := if overlap_bytes < st1.pcm_len then overlap_bytes else 0
    ({ st1 with
        pcm_len := pcm2
        history := hist
        chunk_id := st1.chunk_id + 1 }, true, out.text, out.api_called)
  else (st1, false, none, false)

/-- Handling of one non-empty binary frame in `handle_connection`
(lines 160-215): the decode phase followed by the transcription phase on
the resulting state. -/
def on_audio_frame (st : LiveState) (frame_len : Nat) (now : ℚ)
    (decode : Option Nat) (whisper : Option String) :
    LiveState × FrameReport :=
  let dec := frame_decode st frame_len now decode
  let tr := frame_transcribe dec.1 whisper
  (tr.1,
   { decode_attempted := dec.2.1
     decode_ok := dec.2.2
     transcribed := tr.2.1
     emitted := tr.2.2.1
     api_called := tr.2.2.2 })

/-- Observable outcome of handling a `stop` control message. -/
structure StopReport where
  final_api_called : Bool
  final_emitted : Option String
  complete_text : String
  complete_sent : Bool
  closed : Bool
deriving Repr, DecidableEq

/-- Handling of the `stop` control message in `handle_connection`
(lines 124-155): decode any remaining WebM (failure tolerated), run
`_transcribe_pcm` on the remaining PCM if non-empty (appending and
emitting any final text), always send the `complete` event carrying the
joined fragment history, and leave the receive loop. -/
def stop_decode (st : LiveState) (decode : Option Nat) : LiveState :=
  if 0 < st.webm_len then
    match decode with
    | some pcm => { st with pcm_len := st.pcm_len + pcm }
    | none => st
  else st

def on_stop (st : LiveState) (decode : Option Nat)
    (whisper : Option String) : LiveState × StopReport :=
  let st1 := stop_decode st decode
  let r :=
    if 0 < st1.pcm_len then
      let out := transcribe_pcm whisper st1.pcm_len
      match out.text with
      | some t =>
        ({ st1 with history := st1.history ++ [t] }, out.api_called,
         some t)
      | none => (st1, out.api_called, (none : Option String))
    else (st1, false, (none : Option String))
  (r.1,
   { final_api_called := r.2.1
     final_emitted := r.2.2
     complete_text := pyStrip (String.intercalate " " r.1.history)
     complete_sent := true
     closed := true })

/-- Total decoded PCM available to the final transcription on `stop`:
the retained PCM plus whatever a pending WebM buffer decodes to. -/
def stop_effective_pcm (st : LiveState) (decode : Option Nat) : Nat :=
  st.pcm_len + (if 0 < st.webm_len then decode.getD 0 else 0)

/-- The Instruction rows staged by the loop of `save_to_database` for the
enumerated instruction objects, starting at instruction index `idx`:
one row per object, carrying its position as `instruction_index`. -/
def buildInstrRows (job_id : String) : Nat → List InstrObj → List InstrRow
  | _, [] => []
  | idx, obj :: rest =>
    { job_id := job_id, instruction_index := idx,
      instruction_text := obj.instruction, steps := obj.steps } ::
      buildInstrRows job_id (idx + 1) rest

/-! ## Live websocket endpoint (backend/main.py, lines 482-583)

The text-message branch of `websocket_live_transcription` dispatches on
`data.get("action")`.  `stop` sends a `stopped` event and breaks; `save`
re-transcribes the accumulated session file (when it exists) and sends a
`completed` event whose payload hard-codes `instruction_count: 0` and an
empty instruction list, then breaks; `discard` sends `discarded` and
breaks; any other action falls through and the loop continues.  Neither
`detect_instructions` nor `save_to_database` (nor
`LiveTranscriptionManager.finalize_session`, which is never invoked by
this endpoint) is called, and the database is untouched. -/

inductive WsAction
  | stop
  | save
  | discard
  | other (action : String)
deriving Repr, DecidableEq

structure CompletedData where
  job_id : String
  transcription : String
  instruction_count : Nat
  instructions : List InstrObj
deriving Repr, DecidableEq

inductive WsEvent
  | stopped
  | completed (data : CompletedData)
  | discarded
deriving Repr, DecidableEq

structure CtrlResult where
  event : Option WsEvent
  loop_break : Bool
  ran_detect : Bool
  ran_save : Bool
  db : DBState
deriving Repr, DecidableEq

/-- Text-message dispatch of `websocket_live_transcription`.
`transcribeFile` is the oracle for the transcription of the accumulated
session file; `file_exists` models `os.path.exists(temp_filepath)`.
`ran_detect` / `ran_save` record whether instruction extraction or batch
persistence ran. -/
def ws_handle_control (session_id : String) (db : DBState)
    (file_exists : Bool) (transcribeFile : String) :
    WsAction → CtrlResult
  | .stop => ⟨some .stopped, true, false, false, db⟩
  | .save =>
    let final_text := if file_exists then transcribeFile else ""
    ⟨some (.completed ⟨"job_" ++ session_id, final_text, 0, []⟩),
     true, false, false, db⟩
  | .discard => ⟨some .discarded, true, false, false, db⟩
  | .other _ => ⟨none, false, false, false, db⟩

/-! ## Extraction-response validation (backend/tasks.py, lines 109-122)

The JSON value returned by the LLM (already parsed by `json.loads`; the
`json_object` response format guarantees a top-level object, whose fields
are the input here).  The validation reads `result["instructions"]`,
returns zero instructions when the key is missing or its value is not a
list, and otherwise keeps `str(inst).strip()` for every truthy element
`inst` of the list. -/

inductive JVal
  | jstr (s : String)
  | jnum (n : Int)
  | jbool (b : Bool)
  | jnull
  | jarr (items : List JVal)
  | jobj (fields : List (String × JVal))

/-- Quote character used by Python repr of strings. -/
def pyQ : String := (Char.ofNat 39).toString

mutual

/-- Python `repr()` on a parsed JSON value. -/
def pyRepr : JVal → String
  | .jstr s => pyQ ++ s ++ pyQ
  | .jnum n => toString n
  | .jbool b => if b then "True" else "False"
  | .jnull => "None"
  | .jarr items => "[" ++ pyReprItems items ++ "]"
  | .jobj fields => "\x7b" ++ pyReprFields fields ++ "\x7d"

def pyReprItems : List JVal → String
  | [] => ""
  | [v] => pyRepr v
  | v :: rest => pyRepr v ++ ", " ++ pyReprItems rest

def pyReprFields : List (String × JVal) → String
  | [] => ""
  | [(k, v)] => pyQ ++ k ++ pyQ ++ ": " ++ pyRepr v
  | (k, v) :: rest =>
    pyQ ++ k ++ pyQ ++ ": " ++ pyRepr v ++ ", " ++ pyReprFields rest

end

/-- Python `str()` on a parsed JSON value: like repr, except a top-level
string is returned unquoted. -/
def pyStr : JVal → String
  | .jstr s => s
  | v => pyRepr v

/-- Python truthiness of a parsed JSON value. -/
def pyTruthy : JVal → Bool
  | .jstr s => !(s == "")
  | .jnum n => !(n == 0)
  | .jbool b => b
  | .jnull => false
  | .jarr items => !items.isEmpty
  | .jobj fields => !fields.isEmpty

/-- Validation tail of `detect_instructions` in `backend/tasks.py`
(lines 109-122), applied to the fields of the parsed LLM response. -/
def detect_instructions_validate (result : List (String × JVal)) :
    List String :=
  match result.lookup "instructions" with
  | none => []
  | some (.jarr items) =>
    (items.filter pyTruthy).map (fun x => pyStrip (pyStr x))
  | some _ => []

/-! ## Instruction post-processing (main.py, lines 158-170)

`split_instruction_steps` lower-cases the instruction, rewrites
" and then " and " then " to " and ", splits on " and ", strips each
part, drops empty parts, removes a leading "students"/"please"/"kindly"
word (regex `^(students|please|kindly)\s+`), and capitalizes each part.
Character-level operations are modelled on ASCII (`lower`, `capitalize`
and `\s` behave identically there, and the instruction texts handled by
the code are ASCII). -/

def asciiLowerChar (c : Char) : Char :=
  if 65 ≤ c.toNat ∧ c.toNat ≤ 90 then Char.ofNat (c.toNat + 32) else c

def asciiUpperChar (c : Char) : Char :=
  if 97 ≤ c.toNat ∧ c.toNat ≤ 122 then Char.ofNat (c.toNat - 32) else c

def isLowerAscii (c : Char) : Bool :=
  decide (97 ≤ c.toNat) && decide (c.toNat ≤ 122)

def isUpperAscii (c : Char) : Bool :=
  decide (65 ≤ c.toNat) && decide (c.toNat ≤ 90)

/-- First character of a string is an uppercase ASCII letter. -/
def firstIsUpper (s : String) : Bool :=
  match s.data.head? with
  | some c => isUpperAscii c
  | none => false

/-- Python `str.replace(pat, repl)`: replace the non-overlapping
occurrences of `pat` left to right (the replacement text is not
rescanned).  Fueled structural recursion; each step consumes at least one
character, so fuel `l.length` is exact. -/
def replaceAllFuel (pat repl : List Char) : Nat → List Char → List Char
  | 0, l => l
  | fuel + 1, l =>
    if pat ≠ [] ∧ pat.isPrefixOf l then
      repl ++ replaceAllFuel pat repl fuel (l.drop pat.length)
    else
      match l with
      | [] => []
      | c :: rest => c :: replaceAllFuel pat repl fuel rest

def replaceAll (pat repl l : List Char) : List Char :=
  replaceAllFuel pat repl l.length l

/-- Python `str.split(sep)` for a non-empty separator: segments between
the non-overlapping occurrences of `sep`, scanned left to right. -/
def splitOnFuel (sep : List Char) :
    Nat → List Char → List Char → List (List Char)
  | 0, l, acc => [acc ++ l]
  | fuel + 1, l, acc =>
    if sep ≠ [] ∧ sep.isPrefixOf l then
      acc :: splitOnFuel sep fuel (l.drop sep.length) []
    else
      match l with
      | [] => [acc]
      | c :: rest => splitOnFuel sep fuel rest (acc ++ [c])

def splitOnL (sep l : List Char) : List (List Char) :=
  splitOnFuel sep (l.length + 1) l []

/-- The alternatives of the regex `^(students|please|kindly)\s+`. -/
def stepLeadWords : List (List Char) :=
  ["students".data, "please".data, "kindly".data]

/-- Python `re.sub(r"^(students|please|kindly)\s+", "", p)`: when one of
the words is a proper lead followed by whitespace, drop the word and the
greedy run of whitespace after it. -/
def stripLeadWord (l : List Char) : List Char :=
  match stepLeadWords.find? (fun w =>
      w.isPrefixOf l &&
        (match (l.drop w.length).head? with
         | some c => isPySpace c
         | none => false)) with
  | some w => (l.drop w.length).dropWhile isPySpace
  | none => l

/-- Python `str.capitalize()`: first character upper-cased, the rest
lower-cased. -/
def pyCapitalizeL : List Char → List Char
  | [] => []
  | c :: rest => asciiUpperChar c :: rest.map asciiLowerChar

/-- `split_instruction_steps` of `main.py` (lines 158-170) on character
lists. -/
def split_instruction_stepsL (instruction : List Char) :
    List (List Char) :=
  let l1 := instruction.map asciiLowerChar
  let l2 := replaceAll " and then ".data " and ".data l1
  let l3 := replaceAll " then ".data " and ".data l2
  let parts :=
    ((splitOnL " and ".data l3).map pyStripL).filter (fun p => p ≠ [])
  parts.map (fun p => pyCapitalizeL (stripLeadWord p))

/-- `split_instruction_steps` of `main.py` on strings. -/
def split_instruction_steps (s : String) : List String :=
  (split_instruction_stepsL s.data).map (fun l => ⟨l⟩)

/-! ## Lemmas about the persistence loops -/

theorem saveSteps_ok (ttsOk : Nat → Nat → Bool) (bucket region job_id : String)
    (idx : Nat) (steps : List String) : ∀ j : Nat,
    (saveSteps ttsOk bucket region job_id idx j steps).2.2 =
      stepsSynthOk ttsOk idx j steps := by
  induction steps with
  | nil => intro j; rfl
  | cons step rest ih =>
    intro j
    simp only [saveSteps, stepsSynthOk, generate_tts_audio]
    cases h : ttsOk idx j with
    | false => simp [h]
    | true => simp [h, ih (j + 1)]

theorem saveInstrs_ok (ttsOk : Nat → Nat → Bool)
    (bucket region job_id : String) (instrs : List InstrObj) : ∀ idx : Nat,
    (saveInstrs ttsOk bucket region job_id idx instrs).2.2.2 =
      allSynthOk ttsOk idx instrs := by
  induction instrs with
  | nil => intro idx; rfl
  | cons obj rest ih =>
    intro idx
    simp only [saveInstrs, allSynthOk]
    rw [← saveSteps_ok ttsOk bucket region job_id idx obj.steps 0]
    cases h : (saveSteps ttsOk bucket region job_id idx 0 obj.steps).2.2 with
    | false => simp [h]
    | true => simp [h, ih (idx + 1)]

theorem saveSteps_trace (ttsOk : Nat → Nat → Bool)
    (bucket region job_id : String) (idx : Nat) (steps : List String) :
    ∀ j : Nat, SaveEvent.commitJob ∉
      (saveSteps ttsOk bucket region job_id idx j steps).2.1 := by
  induction steps with
  | nil => intro j; simp [saveSteps]
  | cons step rest ih =>
    intro j
    simp only [saveSteps, generate_tts_audio]
    cases h : ttsOk idx j with
    | false => simp [h]
    | true =>
      simp only [h, if_true]
      intro hmem
      rcases List.mem_cons.mp hmem with hm | hm
      · exact SaveEvent.noConfusion hm
      · exact ih (j + 1) hm

theorem saveInstrs_trace (ttsOk : Nat → Nat → Bool)
    (bucket region job_id : String) (instrs : List InstrObj) :
    ∀ idx : Nat, SaveEvent.commitJob ∉
      (saveInstrs ttsOk bucket region job_id idx instrs).2.2.1 := by
  induction instrs with
  | nil => intro idx; simp [saveInstrs]
  | cons obj rest ih =>
    intro idx
    simp only [saveInstrs]
    cases h : (saveSteps ttsOk bucket region job_id idx 0 obj.steps).2.2 with
    | false =>
      simp only [h, Bool.false_eq_true, if_false]
      exact saveSteps_trace ttsOk bucket region job_id idx obj.steps 0
    | true =>
      simp only [h, if_true]
      intro hmem
      rcases List.mem_append.mp hmem with hm | hm
      · exact saveSteps_trace ttsOk bucket region job_id idx obj.steps 0 hm
      · exact ih (idx + 1) hm

/-! ## Claim C1: partial synthesis failure -/

/-- Claim C1 counterexample.  The claim states that when exactly one of the
K synthesis calls of a job fails, the job persists with K-1 chunks having
non-null URLs and one with a null URL and the operation reports success.
On the code, a job with one instruction of K = 2 steps whose second
synthesis call fails ends with `ok = false` (the exception propagates to
the caller, which turns it into HTTP 500), no chunk row at all (null or
otherwise), no instruction row, and only the job row committed. -/
theorem claim_C1_counterexample :
    save_to_database (fun i j => !(i == 0 && j == 1)) "bkt" "reg"
      DBState.empty "job_x" "open the book then close it"
      [⟨"Main Procedure", ["Open the book", "Close the book"]⟩] =
    { db := { jobs := [⟨"job_x", "open the book then close it", 1⟩],
              instructions := [], chunks := [] },
      trace := [SaveEvent.commitJob, SaveEvent.ttsCall 0 0,
                SaveEvent.ttsCall 0 1],
      ok := false } := by
  rfl

/-- Claim C1 (amended): if any of the synthesis calls issued for a job
fails, `save_to_database` aborts with the exception propagating to the
caller (the operation reports failure, not success); only the Job row —
committed before synthesis began — persists, and no Instruction row and no
AudioChunk row (with or without a URL) is committed. -/
theorem claim_C1_amended (ttsOk : Nat → Nat → Bool)
    (bucket region : String) (db : DBState)
    (job_id transcription : String) (instrs : List InstrObj)
    (h : allSynthOk ttsOk 0 instrs = false) :
    (save_to_database ttsOk bucket region db job_id transcription
        instrs).ok = false ∧
    (save_to_database ttsOk bucket region db job_id transcription
        instrs).db.jobs =
      db.jobs ++ [⟨job_id, transcription, instrs.length⟩] ∧
    (save_to_database ttsOk bucket region db job_id transcription
        instrs).db.instructions = db.instructions ∧
    (save_to_database ttsOk bucket region db job_id transcription
        instrs).db.chunks = db.chunks := by
  have hok := saveInstrs_ok ttsOk bucket region job_id instrs 0
  simp [save_to_database, hok, h]

/-- Claim C1 witness: a concrete failing oracle satisfying the amended
theorem's hypothesis. -/
theorem claim_C1_amended_witness :
    allSynthOk (fun i j => !(i == 1 && j == 0)) 0
      [⟨"Setup", ["Take out your notebooks"]⟩,
       ⟨"Main Procedure", ["Draw a circle"]⟩] = false ∧
    ((save_to_database (fun i j => !(i == 1 && j == 0)) "b" "r"
        DBState.empty "job_y" "t"
        [⟨"Setup", ["Take out your notebooks"]⟩,
         ⟨"Main Procedure", ["Draw a circle"]⟩]).ok = false ∧
     (save_to_database (fun i j => !(i == 1 && j == 0)) "b" "r"
        DBState.empty "job_y" "t"
        [⟨"Setup", ["Take out your notebooks"]⟩,
         ⟨"Main Procedure", ["Draw a circle"]⟩]).db.jobs =
       DBState.empty.jobs ++ [⟨"job_y", "t", 2⟩] ∧
     (save_to_database (fun i j => !(i == 1 && j == 0)) "b" "r"
        DBState.empty "job_y" "t"
        [⟨"Setup", ["Take out your notebooks"]⟩,
         ⟨"Main Procedure", ["Draw a circle"]⟩]).db.instructions =
       DBState.empty.instructions ∧
     (save_to_database (fun i j => !(i == 1 && j == 0)) "b" "r"
        DBState.empty "job_y" "t"
        [⟨"Setup", ["Take out your notebooks"]⟩,
         ⟨"Main Procedure", ["Draw a circle"]⟩]).db.chunks =
       DBState.empty.chunks) :=
  ⟨by decide,
   claim_C1_amended (fun i j => !(i == 1 && j == 0)) "b" "r"
     DBState.empty "job_y" "t"
     [⟨"Setup", ["Take out your notebooks"]⟩,
      ⟨"Main Procedure", ["Draw a circle"]⟩] (by decide)⟩

/-! ## Claim C3: transcription or extraction failure aborts with no Job -/

/-- Claim C3: in the batch route `analyze_audio`, a failure of the
transcription step or of the instruction-extraction step makes the whole
operation return an error, and nothing — no Job, Instruction or AudioChunk
row — is persisted: the database is exactly as before the call. -/
theorem claim_C3_upstream_failure_aborts (ttsOk : Nat → Nat → Bool)
    (bucket region : String) (db : DBState) (job_id : String)
    (transcribe : Except String String)
    (detect : String → Except String (List InstrObj))
    (h : (∃ e, transcribe = .error e) ∨
         (∃ tr e, transcribe = .ok tr ∧ detect tr = .error e)) :
    (∃ e, (analyze_audio ttsOk bucket region db job_id transcribe
        detect).1 = .error e) ∧
    (analyze_audio ttsOk bucket region db job_id transcribe detect).2
      = db := by
  rcases h with ⟨e, he⟩ | ⟨tr, e, htr, hd⟩
  · subst he
    exact ⟨⟨e, rfl⟩, rfl⟩
  · subst htr
    simp only [analyze_audio, hd]
    exact ⟨⟨e, rfl⟩, trivial⟩

/-- Claim C3 witness: a concrete failing transcription oracle. -/
theorem claim_C3_witness :
    ((∃ e, (.error "whisper timeout" : Except String String) = .error e) ∨
     (∃ tr e, (.error "whisper timeout" : Except String String) = .ok tr ∧
        (fun _ : String => (.ok [] : Except String (List InstrObj))) tr
          = .error e)) ∧
    ((∃ e, (analyze_audio (fun _ _ => true) "b" "r" DBState.empty "job_z"
        (.error "whisper timeout")
        (fun _ => .ok [])).1 = .error e) ∧
     (analyze_audio (fun _ _ => true) "b" "r" DBState.empty "job_z"
        (.error "whisper timeout") (fun _ => .ok [])).2 = DBState.empty) :=
  ⟨Or.inl ⟨"whisper timeout", rfl⟩,
   claim_C3_upstream_failure_aborts (fun _ _ => true) "b" "r"
     DBState.empty "job_z" (.error "whisper timeout") (fun _ => .ok [])
     (Or.inl ⟨"whisper timeout", rfl⟩)⟩

/-! ## Claim C8: the Job row is committed before synthesis starts -/

/-- Claim C8: in `save_to_database` the Job record (carrying the
transcript and the instruction count) is committed strictly before any
speech-synthesis call is issued — the event trace starts with the job
commit, and the job row is in the committed store whatever the synthesis
oracle later does, so a job id exists even if synthesis fails. -/
theorem claim_C8_job_committed_first (ttsOk : Nat → Nat → Bool)
    (bucket region : String) (db : DBState)
    (job_id transcription : String) (instrs : List InstrObj) :
    (∃ rest, (save_to_database ttsOk bucket region db job_id transcription
        instrs).trace = SaveEvent.commitJob :: rest ∧
      SaveEvent.commitJob ∉ rest) ∧
    (save_to_database ttsOk bucket region db job_id transcription
        instrs).db.jobs =
      db.jobs ++ [⟨job_id, transcription, instrs.length⟩] := by
  have htr := saveInstrs_trace ttsOk bucket region job_id instrs 0
  by_cases h : (saveInstrs ttsOk bucket region job_id 0 instrs).2.2.2 = true
  · refine ⟨⟨(saveInstrs ttsOk bucket region job_id 0 instrs).2.2.1 ++
        [SaveEvent.commitAll], ?_, ?_⟩, ?_⟩
    · simp [save_to_database, h]
    · intro hmem
      rcases List.mem_append.mp hmem with hm | hm
      · exact htr hm
      · simp at hm
    · simp [save_to_database, h]
  · refine ⟨⟨(saveInstrs ttsOk bucket region job_id 0 instrs).2.2.1,
        ?_, htr⟩, ?_⟩
    · simp [save_to_database, h]
    · simp [save_to_database, h]

/-! ## Claim C7: contiguous instruction indices in extractor order -/

theorem insertionSort_eq_of_sorted {α : Type} (r : α → α → Prop)
    [DecidableRel r] :
    ∀ l : List α, List.Sorted r l → List.insertionSort r l = l := by
  intro l hl
  induction l with
  | nil => rfl
  | cons a t ih =>
    rw [List.insertionSort, ih (List.sorted_cons.mp hl).2]
    cases t with
    | nil => rfl
    | cons b t2 =>
      rw [List.orderedInsert,
        if_pos ((List.sorted_cons.mp hl).1 b (List.mem_cons_self b t2))]

theorem buildInstrRows_map_index (job_id : String) (instrs : List InstrObj) :
    ∀ idx : Nat,
    (buildInstrRows job_id idx instrs).map InstrRow.instruction_index =
      List.range' idx instrs.length := by
  induction instrs with
  | nil => intro idx; rfl
  | cons obj rest ih =>
    intro idx
    simp only [buildInstrRows, List.map_cons, List.length_cons,
      List.range'_succ, ih (idx + 1)]

theorem buildInstrRows_map_text (job_id : String) (instrs : List InstrObj) :
    ∀ idx : Nat,
    (buildInstrRows job_id idx instrs).map InstrRow.instruction_text =
      instrs.map InstrObj.instruction := by
  induction instrs with
  | nil => intro idx; rfl
  | cons obj rest ih =>
    intro idx
    simp only [buildInstrRows, List.map_cons, ih (idx + 1)]

theorem buildInstrRows_job_id (job_id : String) (instrs : List InstrObj) :
    ∀ idx : Nat, ∀ row ∈ buildInstrRows job_id idx instrs,
      row.job_id = job_id := by
  induction instrs with
  | nil => intro idx row h; simp [buildInstrRows] at h
  | cons obj rest ih =>
    intro idx row h
    rcases List.mem_cons.mp h with hm | hm
    · rw [hm]
    · exact ih (idx + 1) row hm

theorem buildInstrRows_index_ge (job_id : String) (instrs : List InstrObj) :
    ∀ idx : Nat, ∀ row ∈ buildInstrRows job_id idx instrs,
      idx ≤ row.instruction_index := by
  induction instrs with
  | nil => intro idx row h; simp [buildInstrRows] at h
  | cons obj rest ih =>
    intro idx row h
    rcases List.mem_cons.mp h with hm | hm
    · rw [hm]
    · exact Nat.le_of_succ_le (ih (idx + 1) row hm)

theorem buildInstrRows_sorted (job_id : String) (instrs : List InstrObj) :
    ∀ idx : Nat, List.Sorted instrLe (buildInstrRows job_id idx instrs) := by
  induction instrs with
  | nil => intro idx; exact List.sorted_nil
  | cons obj rest ih =>
    intro idx
    rw [buildInstrRows, List.sorted_cons]
    refine ⟨fun b hb => ?_, ih (idx + 1)⟩
    exact Nat.le_of_succ_le (buildInstrRows_index_ge job_id rest (idx + 1) b hb)

theorem saveInstrs_rows_of_ok (ttsOk : Nat → Nat → Bool)
    (bucket region job_id : String) (instrs : List InstrObj) : ∀ idx : Nat,
    (saveInstrs ttsOk bucket region job_id idx instrs).2.2.2 = true →
    (saveInstrs ttsOk bucket region job_id idx instrs).1 =
      buildInstrRows job_id idx instrs := by
  induction instrs with
  | nil => intro idx _; rfl
  | cons obj rest ih =>
    intro idx hok
    simp only [saveInstrs] at hok ⊢
    cases h : (saveSteps ttsOk bucket region job_id idx 0 obj.steps).2.2 with
    | false => rw [h] at hok; simp at hok
    | true =>
      rw [h] at hok
      simp only [if_true] at hok
      simp only [if_true, buildInstrRows]
      rw [ih (idx + 1) hok]

/-- Claim C7 counterexample.  The claim quantifies over every job
persisted from an extraction result with N instructions.  A job whose
(single) synthesis call fails IS persisted — the job row, with
`instruction_count = 1`, is committed before synthesis — yet no
Instruction row is committed, so the stored instruction_index values are
the empty list and not the contiguous range 0..0. -/
theorem claim_C7_counterexample :
    get_job_details (save_to_database (fun _ _ => false) "bkt" "reg"
        DBState.empty "job_c7" "draw a circle"
        [⟨"Draw a circle", ["Draw a circle"]⟩]).db "job_c7" =
      some (⟨"job_c7", "draw a circle", 1⟩, [], []) ∧
    ([] : List Nat) ≠ List.range 1 := by
  exact ⟨rfl, by decide⟩

/-- Claim C7 (amended): for every job whose persistence completed
successfully (every synthesis call succeeded), saved into a store with no
pre-existing rows under its job id and with N extracted instructions, the
stored instruction_index values are exactly the contiguous range 0..N-1,
the instruction texts are in the order returned by the extractor, and
`get_job_details` returns the rows sorted ascending by index. -/
theorem claim_C7_amended (ttsOk : Nat → Nat → Bool)
    (bucket region : String) (db : DBState)
    (job_id transcription : String) (instrs : List InstrObj)
    (hjob : db.jobs.find? (fun j => j.job_id == job_id) = none)
    (hinstr : db.instructions.filter (fun r => r.job_id == job_id) = [])
    (hok : allSynthOk ttsOk 0 instrs = true) :
    ∃ irs chunks,
      get_job_details (save_to_database ttsOk bucket region db job_id
          transcription instrs).db job_id =
        some (⟨job_id, transcription, instrs.length⟩, irs, chunks) ∧
      irs.map InstrRow.instruction_index = List.range instrs.length ∧
      irs.map InstrRow.instruction_text =
        instrs.map InstrObj.instruction ∧
      List.Sorted instrLe irs := by
  have hok' : (saveInstrs ttsOk bucket region job_id 0 instrs).2.2.2
      = true := by
    rw [saveInstrs_ok]; exact hok
  have hrows := saveInstrs_rows_of_ok ttsOk bucket region job_id instrs 0 hok'
  have hdb : (save_to_database ttsOk bucket region db job_id transcription
      instrs).db =
      { jobs := db.jobs ++ [⟨job_id, transcription, instrs.length⟩],
        instructions :=
          db.instructions ++ buildInstrRows job_id 0 instrs,
        chunks := db.chunks ++
          (saveInstrs ttsOk bucket region job_id 0 instrs).2.1 } := by
    simp [save_to_database, hok', hrows]
  have hfind : ((db.jobs ++
      [(⟨job_id, transcription, instrs.length⟩ : JobRow)]).find?
        (fun j => j.job_id == job_id)) =
      some ⟨job_id, transcription, instrs.length⟩ := by
    rw [List.find?_append, hjob]
    simp [List.find?]
  have hfilter : ((db.instructions ++ buildInstrRows job_id 0 instrs).filter
      (fun r => r.job_id == job_id)) = buildInstrRows job_id 0 instrs := by
    rw [List.filter_append, hinstr, List.nil_append]
    rw [List.filter_eq_self]
    intro row hrow
    simp [buildInstrRows_job_id job_id instrs 0 row hrow]
  have hsort : List.insertionSort instrLe (buildInstrRows job_id 0 instrs)
      = buildInstrRows job_id 0 instrs :=
    insertionSort_eq_of_sorted instrLe _ (buildInstrRows_sorted job_id instrs 0)
  have hget : get_job_details (save_to_database ttsOk bucket region db
      job_id transcription instrs).db job_id =
      some (⟨job_id, transcription, instrs.length⟩,
        buildInstrRows job_id 0 instrs,
        List.insertionSort chunkLe ((db.chunks ++
          (saveInstrs ttsOk bucket region job_id 0 instrs).2.1).filter
            (fun r => r.job_id == job_id))) := by
    rw [hdb]
    simp only [get_job_details, hfind, hfilter, hsort, Option.map_some']
  refine ⟨buildInstrRows job_id 0 instrs, _, hget, ?_, ?_, ?_⟩
  · rw [buildInstrRows_map_index, List.range_eq_range']
  · exact buildInstrRows_map_text job_id instrs 0
  · exact buildInstrRows_sorted job_id instrs 0

/-- Claim C7 witness: two extracted instructions, all synthesis calls
succeeding, saved into the empty store. -/
theorem claim_C7_amended_witness :
    (DBState.empty.jobs.find? (fun j => j.job_id == "job_w7") = none) ∧
    (DBState.empty.instructions.filter (fun r => r.job_id == "job_w7")
      = []) ∧
    (allSynthOk (fun _ _ => true) 0
      [⟨"Open your book", ["Open your book"]⟩,
       ⟨"Circle the red atoms", ["Circle the red atoms"]⟩] = true) ∧
    (∃ irs chunks,
      get_job_details (save_to_database (fun _ _ => true) "b" "r"
          DBState.empty "job_w7" "please open your book"
          [⟨"Open your book", ["Open your book"]⟩,
           ⟨"Circle the red atoms", ["Circle the red atoms"]⟩]).db
          "job_w7" =
        some (⟨"job_w7", "please open your book", 2⟩, irs, chunks) ∧
      irs.map InstrRow.instruction_index = List.range 2 ∧
      irs.map InstrRow.instruction_text =
        [⟨"Open your book", ["Open your book"]⟩,
         ⟨"Circle the red atoms",
          ["Circle the red atoms"]⟩].map InstrObj.instruction ∧
      List.Sorted instrLe irs) :=
  ⟨rfl, rfl, by decide,
   claim_C7_amended (fun _ _ => true) "b" "r" DBState.empty "job_w7"
     "please open your book"
     [⟨"Open your book", ["Open your book"]⟩,
      ⟨"Circle the red atoms", ["Circle the red atoms"]⟩]
     rfl rfl (by decide)⟩

/-! ## Lemmas about the live handler's arithmetic -/

theorem overlap_bytes_eq : overlap_bytes = 6400 := by
  norm_num [overlap_bytes, overlap_sec, sample_rate, channels, sample_width]
  decide

theorem pcm_duration_eq (len : Nat) :
    pcm_duration len = (len : ℚ) / 32000 := by
  norm_num [pcm_duration, sample_rate, channels, sample_width]

theorem transcribe_pcm_api (whisper : Option String) (len : Nat) :
    (transcribe_pcm whisper len).api_called = true ↔
      (0 < len ∧ min_audio_sec ≤ pcm_duration len) := by
  unfold transcribe_pcm
  by_cases h0 : len = 0
  · simp [h0]
  · rw [if_neg h0]
    by_cases h1 : pcm_duration len < min_audio_sec
    · rw [if_pos h1]
      simp only [Bool.false_eq_true, false_iff]
      intro hc
      exact absurd hc.2 (not_le.mpr h1)
    · rw [if_neg h1]
      cases whisper with
      | none =>
        simp only [true_iff]
        exact ⟨Nat.pos_of_ne_zero h0, not_lt.mp h1⟩
      | some t =>
        have hgood : 0 < len ∧ min_audio_sec ≤ pcm_duration len :=
          ⟨Nat.pos_of_ne_zero h0, not_lt.mp h1⟩
        refine iff_of_true ?_ hgood
        dsimp only
        split <;> rfl

theorem frame_decode_attempted (st : LiveState) (frame_len : Nat)
    (now : ℚ) (decode : Option Nat) :
    ((frame_decode st frame_len now decode).2.1 = true) ↔
      (min_webm_bytes_to_decode ≤ st.webm_len + frame_len ∨
        (0 < st.webm_len + frame_len ∧
          force_decode_timeout ≤ now - st.last_decode_time)) := by
  unfold frame_decode
  by_cases hc : min_webm_bytes_to_decode ≤ st.webm_len + frame_len ∨
      (0 < st.webm_len + frame_len ∧
        force_decode_timeout ≤ now - st.last_decode_time)
  · rw [if_pos hc]
    cases decode <;> exact iff_of_true rfl hc
  · rw [if_neg hc]
    exact iff_of_false (by simp) hc

theorem frame_transcribe_bound (st1 : LiveState) (whisper : Option String) :
    ((frame_transcribe st1 whisper).2.1 = true →
      (frame_transcribe st1 whisper).1.pcm_len ≤ overlap_bytes) ∧
    pcm_duration (frame_transcribe st1 whisper).1.pcm_len <
      buffer_size_sec := by
  have hov : pcm_duration overlap_bytes < buffer_size_sec := by
    rw [overlap_bytes_eq, pcm_duration_eq]
    norm_num [buffer_size_sec]
  have hz : pcm_duration 0 < buffer_size_sec := by
    rw [pcm_duration_eq]
    norm_num [buffer_size_sec]
  unfold frame_transcribe
  by_cases h : buffer_size_sec ≤ pcm_duration st1.pcm_len
  · rw [if_pos h]
    by_cases h2 : overlap_bytes < st1.pcm_len
    · exact ⟨fun _ => by simp [h2], by simpa [h2] using hov⟩
    · exact ⟨fun _ => by simp [h2], by simpa [h2] using hz⟩
  · rw [if_neg h]
    exact ⟨fun hfalse => by simp at hfalse, lt_of_not_le h⟩

/-! ## Claim C4: decode-readiness disjunction -/

/-- Claim C4: for every non-empty incoming audio frame, a decode of the
compressed WebM buffer is attempted if and only if the (post-append)
buffer length is at least `min_webm_bytes_to_decode` OR the buffer is
non-empty and the time since the last decode is at least
`force_decode_timeout`; in particular a buffer below the byte threshold is
still decoded once the time threshold is reached. -/
theorem claim_C4_decode_readiness (st : LiveState) (frame_len : Nat)
    (now : ℚ) (decode : Option Nat) (whisper : Option String)
    (hframe : 0 < frame_len) :
    ((on_audio_frame st frame_len now decode whisper).2.decode_attempted
        = true ↔
      (min_webm_bytes_to_decode ≤ st.webm_len + frame_len ∨
        (0 < st.webm_len + frame_len ∧
          force_decode_timeout ≤ now - st.last_decode_time))) ∧
    (st.webm_len + frame_len < min_webm_bytes_to_decode →
      force_decode_timeout ≤ now - st.last_decode_time →
      (on_audio_frame st frame_len now decode whisper).2.decode_attempted
        = true) := by
  have key : ((on_audio_frame st frame_len now decode
      whisper).2.decode_attempted = true) ↔
      (min_webm_bytes_to_decode ≤ st.webm_len + frame_len ∨
        (0 < st.webm_len + frame_len ∧
          force_decode_timeout ≤ now - st.last_decode_time)) :=
    frame_decode_attempted st frame_len now decode
  refine ⟨key, fun _ h2 => ?_⟩
  exact key.mpr (Or.inr ⟨by omega, h2⟩)

/-- Claim C4 witness: a 100-byte buffer (far below the 20000-byte
threshold) with 3 seconds elapsed since the last decode still triggers a
decode attempt. -/
theorem claim_C4_witness :
    0 < 100 ∧
    (((on_audio_frame ⟨0, 0, [], 0, 0⟩ 100 3 (some 0)
        none).2.decode_attempted = true ↔
      (min_webm_bytes_to_decode ≤ (0 : Nat) + 100 ∨
        (0 < (0 : Nat) + 100 ∧ force_decode_timeout ≤ 3 - 0))) ∧
     ((0 : Nat) + 100 < min_webm_bytes_to_decode →
      force_decode_timeout ≤ 3 - 0 →
      (on_audio_frame ⟨0, 0, [], 0, 0⟩ 100 3 (some 0)
        none).2.decode_attempted = true)) :=
  ⟨by decide,
   claim_C4_decode_readiness ⟨0, 0, [], 0, 0⟩ 100 3 (some 0) none
     (by decide)⟩

/-! ## Claim C6: bounded PCM retention after each emission -/

/-- Claim C6: after handling any audio frame, if a transcription was
triggered then the retained PCM buffer holds at most `overlap_bytes`
(= overlap_sec × sample_rate × channels × sample_width bytes), and in
every case the resulting PCM buffer is strictly below the
`buffer_size_sec` transcription trigger, so the buffer stays bounded
across the whole session. -/
theorem claim_C6_overlap_retention (st : LiveState) (frame_len : Nat)
    (now : ℚ) (decode : Option Nat) (whisper : Option String) :
    ((on_audio_frame st frame_len now decode whisper).2.transcribed
        = true →
      (on_audio_frame st frame_len now decode whisper).1.pcm_len ≤
        overlap_bytes) ∧
    pcm_duration
      (on_audio_frame st frame_len now decode whisper).1.pcm_len <
      buffer_size_sec :=
  frame_transcribe_bound (frame_decode st frame_len now decode).1 whisper

/-- Claim C6 witness: a frame that triggers decode and transcription; the
retained buffer afterwards is within the overlap window. -/
theorem claim_C6_witness :
    (on_audio_frame ⟨0, 0, [], 0, 0⟩ 20000 0 (some 64000)
      (some "hello")).2.transcribed = true ∧
    (on_audio_frame ⟨0, 0, [], 0, 0⟩ 20000 0 (some 64000)
      (some "hello")).1.pcm_len ≤ overlap_bytes := by
  have htr : (on_audio_frame ⟨0, 0, [], 0, 0⟩ 20000 0 (some 64000)
      (some "hello")).2.transcribed = true := by
    norm_num [on_audio_frame, frame_decode, frame_transcribe,
      pcm_duration, min_webm_bytes_to_decode, buffer_size_sec,
      sample_rate, channels, sample_width]
  exact ⟨htr,
    (claim_C6_overlap_retention ⟨0, 0, [], 0, 0⟩ 20000 0 (some 64000)
      (some "hello")).1 htr⟩

/-! ## Claim C5: final drain on stop -/

/-- Claim C5 counterexample.  The claim states that on `stop` with a
non-empty decoded PCM buffer the remainder is drained through exactly one
final transcription call regardless of its duration.  With 16000 bytes of
PCM (0.5 s, non-empty) the handler invokes `_transcribe_pcm`, which
returns None without ever calling the transcription API because the
duration is below `min_audio_sec` (1.0 s). -/
theorem claim_C5_counterexample :
    0 < (⟨16000, 0, [], 0, 0⟩ : LiveState).pcm_len ∧
    (on_stop ⟨16000, 0, [], 0, 0⟩ none
      (some "hi")).2.final_api_called = false := by
  refine ⟨by norm_num, ?_⟩
  norm_num [on_stop, stop_decode, transcribe_pcm, pcm_duration,
    min_audio_sec, sample_rate, channels, sample_width]

/-- Claim C5 (amended): on `stop`, any remaining WebM is decoded into the
PCM buffer and `_transcribe_pcm` is run once on it; the transcription API
is actually called if and only if the effective remaining PCM is
non-empty AND lasts at least `min_audio_sec`; the `complete` event
carrying the aggregate of all emitted fragments is always sent and the
session always leaves the receive loop (closes). -/
theorem claim_C5_amended (st : LiveState) (decode : Option Nat)
    (whisper : Option String) :
    (on_stop st decode whisper).2.closed = true ∧
    (on_stop st decode whisper).2.complete_sent = true ∧
    (on_stop st decode whisper).2.complete_text =
      pyStrip (String.intercalate " "
        (on_stop st decode whisper).1.history) ∧
    ((on_stop st decode whisper).2.final_api_called = true ↔
      (0 < stop_effective_pcm st decode ∧
        min_audio_sec ≤ pcm_duration (stop_effective_pcm st decode))) := by
  have heff : (stop_decode st decode).pcm_len =
      stop_effective_pcm st decode := by
    unfold stop_decode stop_effective_pcm
    split
    · cases decode <;> simp
    · simp
  simp only [on_stop]
  refine ⟨trivial, trivial, trivial, ?_⟩
  rw [← heff]
  by_cases hpos : 0 < (stop_decode st decode).pcm_len
  · rw [if_pos hpos]
    cases htext :
        (transcribe_pcm whisper (stop_decode st decode).pcm_len).text with
    | none =>
      simp only [htext]
      exact transcribe_pcm_api whisper _
    | some t =>
      simp only [htext]
      exact transcribe_pcm_api whisper _
  · rw [if_neg hpos]
    exact iff_of_false (by simp) (fun hc => hpos hc.1)

/-! ## Claim C2: the websocket save path -/

/-- Claim C2 counterexample.  The claim states that a `save` control
message runs instruction extraction, performs the batch persistence
pipeline, and emits the full structured result.  On the code, `save` on a
session whose file holds audio that transcribes to "open your books"
emits a `completed` payload with `instruction_count = 0` and an empty
instruction list, runs neither `detect_instructions` nor
`save_to_database`, and leaves the database untouched (the session does
close). -/
theorem claim_C2_counterexample :
    ws_handle_control "abc12345" DBState.empty true "open your books"
      WsAction.save =
    { event := some (WsEvent.completed
        ⟨"job_abc12345", "open your books", 0, []⟩)
      loop_break := true
      ran_detect := false
      ran_save := false
      db := DBState.empty } := by
  rfl

/-- Claim C2 (amended): on a `save` control message the endpoint
transcribes the accumulated session file once (empty text when the file
does not exist), emits a `completed` event whose payload carries that
transcription with a hard-coded `instruction_count` of 0 and an empty
instruction list, performs no extraction and no persistence (the
database is unchanged), and transitions to CLOSED (leaves the receive
loop).  The `finalize_session` pipeline the claim describes exists in
`LiveTranscriptionManager` but is never invoked by the endpoint. -/
theorem claim_C2_amended (session_id : String) (db : DBState)
    (file_exists : Bool) (transcribeFile : String) :
    ws_handle_control session_id db file_exists transcribeFile
      WsAction.save =
    { event := some (WsEvent.completed
        ⟨"job_" ++ session_id,
         (if file_exists then transcribeFile else ""), 0, []⟩)
      loop_break := true
      ran_detect := false
      ran_save := false
      db := db } := by
  rfl

/-! ## Claim C9: extraction-response shape validation -/

/-- Claim C9 counterexample.  The claim states the extractor validates
that the response is a list of strings or a list of
instruction-and-steps objects, any other shape being treated as zero
instructions.  A response whose `instructions` value is a list of
numbers is neither shape, yet it is not treated as zero instructions:
each number is coerced with `str()` and kept. -/
theorem claim_C9_counterexample :
    detect_instructions_validate
      [("instructions", JVal.jarr [JVal.jnum 1, JVal.jnum 2])] =
      ["1", "2"] ∧
    (["1", "2"] : List String) ≠ [] := by
  exact ⟨rfl, by decide⟩

/-- Claim C9 (amended): the tasks.py extractor validates only the top
level of the response: a missing `instructions` key or a non-list value
yields zero instructions; any list value is accepted, its falsy elements
dropped and every remaining element coerced to its Python string form
and stripped — elements are not checked to be strings or
instruction-and-steps objects. -/
theorem claim_C9_amended (result : List (String × JVal)) :
    (result.lookup "instructions" = none →
      detect_instructions_validate result = []) ∧
    (∀ v, result.lookup "instructions" = some v →
      (∀ items, v ≠ JVal.jarr items) →
      detect_instructions_validate result = []) ∧
    (∀ items, result.lookup "instructions" = some (JVal.jarr items) →
      detect_instructions_validate result =
        (items.filter pyTruthy).map (fun x => pyStrip (pyStr x))) := by
  refine ⟨?_, ?_, ?_⟩
  · intro h
    simp [detect_instructions_validate, h]
  · intro v hv hne
    cases v with
    | jarr items => exact absurd rfl (hne items)
    | jstr s => simp [detect_instructions_validate, hv]
    | jnum n => simp [detect_instructions_validate, hv]
    | jbool b => simp [detect_instructions_validate, hv]
    | jnull => simp [detect_instructions_validate, hv]
    | jobj fields => simp [detect_instructions_validate, hv]
  · intro items h
    simp [detect_instructions_validate, h]

/-- Claim C9 witness: concrete responses exercising all three validation
branches. -/
theorem claim_C9_amended_witness :
    (([("notes", JVal.jnull)] : List (String × JVal)).lookup
        "instructions" = none ∧
      detect_instructions_validate [("notes", JVal.jnull)] = []) ∧
    (([("instructions", JVal.jstr "open")] :
        List (String × JVal)).lookup "instructions" =
          some (JVal.jstr "open") ∧
      detect_instructions_validate [("instructions", JVal.jstr "open")]
        = []) ∧
    (([("instructions",
        JVal.jarr [JVal.jstr " Open your book ", JVal.jstr ""])] :
        List (String × JVal)).lookup "instructions" =
          some (JVal.jarr [JVal.jstr " Open your book ", JVal.jstr ""]) ∧
      detect_instructions_validate
        [("instructions",
          JVal.jarr [JVal.jstr " Open your book ", JVal.jstr ""])] =
        ([JVal.jstr " Open your book ", JVal.jstr ""].filter
          pyTruthy).map (fun x => pyStrip (pyStr x))) :=
  ⟨⟨rfl, (claim_C9_amended [("notes", JVal.jnull)]).1 rfl⟩,
   ⟨rfl, (claim_C9_amended [("instructions", JVal.jstr "open")]).2.1
     (JVal.jstr "open") rfl (fun items h => JVal.noConfusion h)⟩,
   ⟨rfl, (claim_C9_amended [("instructions",
       JVal.jarr [JVal.jstr " Open your book ", JVal.jstr ""])]).2.2
     [JVal.jstr " Open your book ", JVal.jstr ""] rfl⟩⟩

/-! ## Lemmas about the instruction post-processing -/

theorem head?_dropWhile_false (p : Char → Bool) :
    ∀ (l : List Char) (c : Char),
    (l.dropWhile p).head? = some c → p c = false := by
  intro l
  induction l with
  | nil => intro c h; simp at h
  | cons a t ih =>
    intro c h
    by_cases pa : p a = true
    · rw [List.dropWhile_cons_of_pos pa] at h
      exact ih c h
    · rw [List.dropWhile_cons_of_neg pa] at h
      simp only [List.head?_cons, Option.some_inj] at h
      rw [← h]
      exact Bool.not_eq_true _ |>.mp pa

theorem pyStripL_getLast_not_space (l : List Char) :
    ∀ c, (pyStripL l).getLast? = some c → isPySpace c = false := by
  intro c h
  unfold pyStripL at h
  rw [List.getLast?_reverse] at h
  exact head?_dropWhile_false isPySpace _ c h

theorem stripLeadWord_ne_nil (l : List Char) (hne : l ≠ [])
    (hlast : ∀ c, l.getLast? = some c → isPySpace c = false) :
    stripLeadWord l ≠ [] := by
  unfold stripLeadWord
  cases hf : stepLeadWords.find? (fun w =>
      w.isPrefixOf l &&
        (match (l.drop w.length).head? with
         | some c => isPySpace c
         | none => false)) with
  | none => exact hne
  | some w =>
    have hpred := List.find?_some hf
    rw [Bool.and_eq_true] at hpred
    obtain ⟨c0, hc0, hc0sp⟩ : ∃ c0, (l.drop w.length).head? = some c0 ∧
        isPySpace c0 = true := by
      rcases hh : (l.drop w.length).head? with _ | c0
      · rw [hh] at hpred
        simp at hpred
      · rw [hh] at hpred
        exact ⟨c0, rfl, hpred.2⟩
    intro hempty
    have hall : ∀ x ∈ l.drop w.length, isPySpace x :=
      List.dropWhile_eq_nil_iff.mp hempty
    have hdne : l.drop w.length ≠ [] := by
      intro hd
      rw [hd] at hc0
      simp at hc0
    have hsplit : l.take w.length ++ l.drop w.length = l :=
      List.take_append_drop w.length l
    have hlasteq : l.getLast? = (l.drop w.length).getLast? := by
      conv_lhs => rw [← hsplit]
      exact List.getLast?_append_of_ne_nil _ hdne
    have hlast2 : (l.drop w.length).getLast? =
        some ((l.drop w.length).getLast hdne) :=
      List.getLast?_eq_getLast _ hdne
    have hmem : (l.drop w.length).getLast hdne ∈ l.drop w.length :=
      List.getLast_mem hdne
    have hsp : isPySpace ((l.drop w.length).getLast hdne) = true :=
      hall _ hmem
    have : isPySpace ((l.drop w.length).getLast hdne) = false :=
      hlast _ (by rw [hlasteq]; exact hlast2)
    rw [this] at hsp
    exact Bool.false_ne_true hsp

theorem pyCapitalizeL_ne_nil (l : List Char) (h : l ≠ []) :
    pyCapitalizeL l ≠ [] := by
  cases l with
  | nil => exact absurd rfl h
  | cons c rest => simp [pyCapitalizeL]

theorem isLowerAscii_asciiUpperChar (c : Char) :
    isLowerAscii (asciiUpperChar c) = false := by
  unfold asciiUpperChar
  by_cases h : 97 ≤ c.toNat ∧ c.toNat ≤ 122
  · rw [if_pos h]
    have hval : (Char.ofNat (c.toNat - 32)).toNat = c.toNat - 32 := by
      unfold Char.ofNat
      rw [dif_pos (Or.inl (by omega))]
      rfl
    simp only [isLowerAscii, hval, Bool.and_eq_false_iff,
      decide_eq_false_iff_not, not_le]
    left
    omega
  · rw [if_neg h]
    simp only [isLowerAscii, Bool.and_eq_false_iff,
      decide_eq_false_iff_not, not_le]
    omega

/-! ## Claim C10: shape of split_instruction_steps output -/

/-- Claim C10 counterexample.  The claim states every element of the
output starts with an uppercase character.  On the input
"1 open your book" the single conjunct part starts with a digit, which
`str.capitalize()` leaves unchanged, so the element's first character is
not uppercase. -/
theorem claim_C10_counterexample :
    split_instruction_steps "1 open your book" = ["1 open your book"] ∧
    firstIsUpper "1 open your book" = false := by
  decide

/-- Claim C10 (amended): every element of `split_instruction_steps` is a
non-empty string whose first character is never a lowercase ASCII letter
(it is the `capitalize`d first character of the prefix-stripped conjunct
part, so it is uppercase whenever that character is a letter, but e.g. a
leading digit stays as is); the elements are the cleaned conjunct parts
of the input in order. -/
theorem claim_C10_amended (s : String) (step : String)
    (hmem : step ∈ split_instruction_steps s) :
    step ≠ "" ∧
    (∀ c, step.data.head? = some c → isLowerAscii c = false) := by
  unfold split_instruction_steps at hmem
  rcases List.mem_map.mp hmem with ⟨l, hl, rfl⟩
  simp only [split_instruction_stepsL] at hl
  rcases List.mem_map.mp hl with ⟨p, hp, rfl⟩
  rcases List.mem_filter.mp hp with ⟨hp', hpne⟩
  rcases List.mem_map.mp hp' with ⟨q, _, rfl⟩
  have hpne' : pyStripL q ≠ [] := of_decide_eq_true hpne
  have hsne : stripLeadWord (pyStripL q) ≠ [] :=
    stripLeadWord_ne_nil _ hpne' (pyStripL_getLast_not_space q)
  refine ⟨?_, ?_⟩
  · intro hcontra
    have hdata : pyCapitalizeL (stripLeadWord (pyStripL q)) = [] := by
      have := congrArg String.data hcontra
      simpa using this
    exact pyCapitalizeL_ne_nil _ hsne hdata
  · intro c hc
    cases hx : stripLeadWord (pyStripL q) with
    | nil => exact absurd hx hsne
    | cons x rest =>
      rw [hx] at hc
      simp only [pyCapitalizeL, List.head?_cons, Option.some_inj] at hc
      rw [← hc]
      exact isLowerAscii_asciiUpperChar x

/-- Claim C10 witness: a concrete instruction whose steps are produced
and satisfy the amended claim. -/
theorem claim_C10_witness :
    ("Open your book" ∈
      split_instruction_steps
        "please open your book and then kindly write") ∧
    ("Open your book" ≠ "" ∧
      (∀ c, "Open your book".data.head? = some c →
        isLowerAscii c = false)) :=
  ⟨by decide,
   claim_C10_amended "please open your book and then kindly write"
     "Open your book" (by decide)⟩

end APD


